import Mathlib

/-!
Shallow embedding of `src/jumble_solver.py` (jumble / anagram solver).

Modelling conventions:
* Python `str` is modelled as Lean `String`; character-level work uses `String.toList`.
* Python's Unicode-aware `str.isalpha` and `str.lower` are modelled exactly
  on all code points below 256 (ASCII plus the Latin-1 supplement, per the
  Unicode character database); code points of 256 and above are treated as
  non-alphabetic and case-invariant, so statements whose truth depends on
  the alphabetic test carry hypotheses keeping them below 256, where the
  model provably agrees with Python. The empty string is not alphabetic,
  as in Python.
* Python `dict` (insertion-ordered since 3.7) is modelled as an association
  list that preserves insertion order; `dict.setdefault(k, []).append(w)`
  appends `w` to the existing entry for `k` or adds a fresh entry at the end.
* Python integers are unbounded, so signatures are `Nat`.
* Fallible operations are explicit: a `KeyError` from `self._prime_dict[c]`,
  the `ValueError` from `list.remove`, and the print-and-`sys.exit` path for a
  non-alphabetic query are the three error outcomes of a query.
* The `while` loops of `__list_first_n_primes` are embedded with explicit
  fuel; the fuel chosen is provably sufficient for the only call site (n = 26).
-/

/-- Python's per-character alphabetic test, exact on code points below 256:
`A`–`Z` (65–90), `a`–`z` (97–122), and the Latin-1 letters `ª` (170),
`µ` (181), `º` (186), `À`–`Ö` (192–214), `Ø`–`ö` (216–246) and
`ø`–`ÿ` (248–255); `×` (215) and `÷` (247) are not letters. -/
def pyCharIsAlpha (c : Char) : Bool :=
  (65 ≤ c.toNat && c.toNat ≤ 90) || (97 ≤ c.toNat && c.toNat ≤ 122) ||
  (c.toNat == 170) || (c.toNat == 181) || (c.toNat == 186) ||
  (192 ≤ c.toNat && c.toNat ≤ 214) || (216 ≤ c.toNat && c.toNat ≤ 246) ||
  (248 ≤ c.toNat && c.toNat ≤ 255)

/-- Python `str.isalpha`: non-empty and every character alphabetic. -/
def pyIsAlpha (s : String) : Bool :=
  !s.toList.isEmpty && s.toList.all pyCharIsAlpha

/-- Python `str.lower` on a single character, exact on code points below
256: the uppercase letters `A`–`Z` (65–90), `À`–`Ö` (192–214) and
`Ø`–`Þ` (216–222) map 32 code points up; everything else below 256 is
case-invariant under `lower`. -/
def pyCharLower (c : Char) : Char :=
  if (65 ≤ c.toNat && c.toNat ≤ 90) || (192 ≤ c.toNat && c.toNat ≤ 214) ||
      (216 ≤ c.toNat && c.toNat ≤ 222) then
    Char.ofNat (c.toNat + 32)
  else c

/-- Python `str.lower`. -/
def pyLower (s : String) : String :=
  String.mk (s.toList.map pyCharLower)

/-- Python `list.remove`: drop the first occurrence of `x`, or fail with
`ValueError` (modelled as `none`) when `x` is absent. -/
def pyRemove (l : List String) (x : String) : Option (List String) :=
  match l with
  | [] => none
  | y :: ys => if y = x then some ys else (pyRemove ys x).map (y :: ·)

/-- The inner `for prime in primes: if i % prime == 0` check of
`__list_first_n_primes`: does some already-found prime divide `i`? -/
def somePrimeDivides (primes : List Nat) (i : Nat) : Bool :=
  primes.any (fun p => i % p == 0)

/-- The inner `while not found_new_prime` loop of `__list_first_n_primes`:
starting from `i`, keep incrementing until a number not divisible by any
element of `primes` is found (with fuel for the unbounded loop). -/
def findNextPrime (primes : List Nat) (i : Nat) : Nat → Option Nat
  | 0 => none
  | fuel + 1 =>
    if somePrimeDivides primes (i + 1) then findNextPrime primes (i + 1) fuel
    else some (i + 1)

/-- The outer `while len(primes) < n` loop of `__list_first_n_primes`:
each iteration starts the search at `primes[-1]` and appends the number
found. -/
def listPrimesLoop (n : Nat) (primes : List Nat) : Nat → Option (List Nat)
  | 0 => none
  | fuel + 1 =>
    if primes.length < n then
      match findNextPrime primes (primes.getLastD 0) 1000 with
      | none => none
      | some p => listPrimesLoop n (primes ++ [p]) fuel
    else some primes

/-- `__WordToNumberMapper.__list_first_n_primes`: returns a list of `n`
primes, starting from the seed list `[2]`. -/
def list_first_n_primes (n : Nat) : Option (List Nat) :=
  listPrimesLoop n [2] (n + 1)

/-- The string `"abcdefghijklmnopqrstuvwxyz"` used to build `_prime_dict`. -/
def azString : String := "abcdefghijklmnopqrstuvwxyz"

/-- `prime_list` as computed in `__WordToNumberMapper.__init__`. -/
def prime_list : List Nat := (list_first_n_primes 26).getD []

/-- `self._prime_dict`: the insertion-ordered dict
`(c => prime_list[i] for i, c in enumerate("abcdefghijklmnopqrstuvwxyz"))`. -/
def prime_dict : List (Char × Nat) := azString.toList.zip prime_list

/-- Python `self._prime_dict[c]`: `none` models a `KeyError`. -/
def primeLookup (c : Char) : Option Nat :=
  (prime_dict.find? (fun kv => kv.fst == c)).map (·.snd)

/-- The prime assigned to a character (defaulting to 0 off the table);
convenience view of `primeLookup` for stating arithmetic lemmas. -/
def sigChar (c : Char) : Nat := (primeLookup c).getD 0

/-- The `res_nbr = 1; for c in word: res_nbr *= self._prime_dict[c]` loop of
`__WordToNumberMapper.map`, with explicit accumulator; `none` models the
`KeyError` raised for a character missing from `_prime_dict`. -/
def mapFrom (acc : Nat) : List Char → Option Nat
  | [] => some acc
  | c :: cs =>
    match primeLookup c with
    | none => none
    | some p => mapFrom (acc * p) cs

namespace WordToNumberMapper

/-- `__WordToNumberMapper.map`: word to prime-product signature. -/
def map (word : String) : Option Nat := mapFrom 1 word.toList

/-- `__WordToNumberMapper.is_sub_or_full_anagram`. -/
def is_sub_or_full_anagram (src_repr cmp_repr : Nat) : Bool :=
  src_repr % cmp_repr == 0

end WordToNumberMapper

/-- State of an `AnagramFinder` instance: `_word_dict` (signature groups,
insertion-ordered) and `_found_anagrams` (the query cache,
insertion-ordered). -/
structure AnagramFinder where
  word_dict : List (Nat × List String)
  found_anagrams : List (String × List String)
deriving DecidableEq, Repr

/-- `self._word_dict.setdefault(nbr_repr, []).append(word)`. -/
def dictAppend (d : List (Nat × List String)) (k : Nat) (w : String) :
    List (Nat × List String) :=
  match d with
  | [] => [(k, [w])]
  | (k', ws) :: rest =>
    if k' = k then (k', ws ++ [w]) :: rest else (k', ws) :: dictAppend rest k w

/-- The constructor loop of `AnagramFinder.__init__` over the word list,
with the dict built so far as accumulator; `none` models a `KeyError`
escaping `map`, which really happens when a word passes `isalpha` with a
letter outside `a`–`z` (such as `é`) missing from `_prime_dict`. -/
def buildDict (d : List (Nat × List String)) :
    List String → Option (List (Nat × List String))
  | [] => some d
  | w :: ws =>
    let w' := pyLower w
    if !pyIsAlpha w' then buildDict d ws
    else
      match WordToNumberMapper.map w' with
      | none => none
      | some nbr => buildDict (dictAppend d nbr w') ws

namespace AnagramFinder

/-- `AnagramFinder.__init__(word_list)`: build `_word_dict` from the word
list and start with an empty `_found_anagrams` cache. -/
def init (word_list : List String) : Option AnagramFinder :=
  (buildDict [] word_list).map (fun d => ⟨d, []⟩)

/-- Python `word in self._found_anagrams` / `self._found_anagrams[word]`. -/
def lookupCache (c : List (String × List String)) (w : String) :
    Option (List String) :=
  (c.find? (fun kv => kv.fst == w)).map (·.snd)

/-- The three error outcomes a query can have in the source: the
print-and-`sys.exit` path for a non-alphabetic word, a `KeyError` from
`_prime_dict[c]`, and the `ValueError` from `list.remove`. -/
inductive PyError where
  | invalidQuery : PyError
  | keyError : PyError
  | valueError : PyError
deriving DecidableEq, Repr

/-- `AnagramFinder._find_all_anagrams_for_word`: encode `word` (as given,
not lowercased), collect the words of every group whose signature divides
the query signature, then `all_anagrams.remove(word)`. -/
def find_all_anagrams_for_word (f : AnagramFinder) (word : String) :
    Except PyError (List String) :=
  match WordToNumberMapper.map word with
  | none => .error .keyError
  | some nbr_repr =>
    let all_anagrams : List String :=
      ((f.word_dict.filter
        (fun kv => WordToNumberMapper.is_sub_or_full_anagram nbr_repr kv.fst)).map
        (·.snd)).flatten
    match pyRemove all_anagrams word with
    | none => .error .valueError
    | some res => .ok res

/-- `AnagramFinder.find_sub_and_full_anagrams`: validate, consult the cache
(keyed by the word exactly as given), otherwise scan and store. Returns the
result list together with the updated finder state. -/
def find_sub_and_full_anagrams (f : AnagramFinder) (word : String) :
    Except PyError (List String × AnagramFinder) :=
  if !pyIsAlpha word then .error .invalidQuery
  else
    match lookupCache f.found_anagrams word with
    | some res => .ok (res, f)
    | none =>
      match find_all_anagrams_for_word f word with
      | .error e => .error e
      | .ok anagrams =>
        .ok (anagrams, ⟨f.word_dict, f.found_anagrams ++ [(word, anagrams)]⟩)

/-- Result list of a query on the finder freshly built from `word_list`
(state dropped); `none` when construction hits a `KeyError` (never in
fact). -/
def queryResult (word_list : List String) (word : String) :
    Option (Except PyError (List String)) :=
  (init word_list).map (fun f => (find_sub_and_full_anagrams f word).map (·.fst))

end AnagramFinder

/-! ## Derived views used by the verification -/

/-- Product-of-primes view of a character list. -/
def prodSig (w : List Char) : Nat := (w.map sigChar).prod

/-- The dictionary entries that survive the constructor's filtering, in
order: lowercased words that pass `isalpha`. -/
def processedWords (ws : List String) : List String :=
  (ws.map pyLower).filter pyIsAlpha

/-- All words stored across the groups of a word dict, in group order. -/
def allWords (d : List (Nat × List String)) : List String :=
  (d.map (·.snd)).flatten

/-- Every stored word's signature is its group's key. -/
def GoodDict (d : List (Nat × List String)) : Prop :=
  ∀ kv ∈ d, ∀ w ∈ kv.snd, WordToNumberMapper.map w = some kv.fst

/-! ## Facts about the prime table (checked by evaluation) -/

theorem az_lookup : ∀ c ∈ azString.toList, primeLookup c = some (sigChar c) := by
  decide

theorem az_prime : ∀ c ∈ azString.toList, Nat.Prime (sigChar c) := by
  decide

theorem az_inj :
    ∀ c1 ∈ azString.toList, ∀ c2 ∈ azString.toList,
      sigChar c1 = sigChar c2 → c1 = c2 := by
  decide

/-! ## C8 -/

/-- C8: the letter-to-prime table is total and injective over `a`–`z`,
its values read in letter order are exactly `prime_list`, which has length
26, is strictly increasing, and contains exactly the primes below 102
(hence the first 26 primes); in particular 'a'→2, 'b'→3, 'c'→5, 'd'→7.
The table is a plain definition, hence fixed. -/
theorem C8_prime_table :
    azString.toList.map sigChar = prime_list
    ∧ (∀ c ∈ azString.toList, primeLookup c = some (sigChar c))
    ∧ (∀ c1 ∈ azString.toList, ∀ c2 ∈ azString.toList,
        sigChar c1 = sigChar c2 → c1 = c2)
    ∧ prime_list.length = 26
    ∧ List.Pairwise (· < ·) prime_list
    ∧ (∀ n < 102, (n ∈ prime_list ↔ Nat.Prime n))
    ∧ primeLookup 'a' = some 2 ∧ primeLookup 'b' = some 3
    ∧ primeLookup 'c' = some 5 ∧ primeLookup 'd' = some 7 := by
  refine ⟨by decide, az_lookup, az_inj, by decide, by decide, by decide,
    by decide, by decide, by decide, by decide⟩

/-! ## C10 -/

/-- C10: querying the empty string takes the invalid-query (print and
`sys.exit`) path on every finder state, because Python's `isalpha` is false
on the empty string; consequently the index scan is never reached with an
empty word. -/
theorem C10_empty_query (f : AnagramFinder) :
    AnagramFinder.find_sub_and_full_anagrams f "" =
      .error .invalidQuery
    ∧ pyIsAlpha "" = false :=
  ⟨rfl, rfl⟩

theorem C10_empty_query_witness :
    AnagramFinder.find_sub_and_full_anagrams ⟨[], []⟩ "" =
      .error .invalidQuery
    ∧ pyIsAlpha "" = false :=
  C10_empty_query ⟨[], []⟩

/-! ## C7 -/

theorem find_all_no_invalid (f : AnagramFinder) (word : String) :
    AnagramFinder.find_all_anagrams_for_word f word ≠
      Except.error .invalidQuery := by
  unfold AnagramFinder.find_all_anagrams_for_word
  cases hm : WordToNumberMapper.map word with
  | none => simp
  | some nbr =>
    simp only
    cases hr : pyRemove
        (((f.word_dict.filter
          (fun kv => WordToNumberMapper.is_sub_or_full_anagram nbr kv.fst)).map
          (·.snd)).flatten) word with
    | none => simp [hr]
    | some res => simp [hr]

/-- C7: a query containing a non-alphabetic character fails with the
invalid-query error and yields no result list, while a purely alphabetic
(non-empty all-letter) query never takes that error path. The witnessing
non-letter is kept below code point 256, where `pyCharIsAlpha` agrees
exactly with Python's `isalpha`, so every instance of the first part is
true of the program; a word that is alphabetic by `pyIsAlpha` is also
alphabetic for Python, so the second part never overreaches either. -/
theorem C7_invalid_query (f : AnagramFinder) (word : String) :
    ((∃ c ∈ word.toList, c.toNat < 256 ∧ pyCharIsAlpha c = false) →
      AnagramFinder.find_sub_and_full_anagrams f word =
        .error .invalidQuery)
    ∧ (pyIsAlpha word = true →
      AnagramFinder.find_sub_and_full_anagrams f word ≠
        .error .invalidQuery) := by
  constructor
  · rintro ⟨c, hc, _, hbad⟩
    have h2 : word.toList.all pyCharIsAlpha = false :=
      List.all_eq_false.mpr ⟨c, hc, by simp [hbad]⟩
    have halpha : pyIsAlpha word = false := by
      unfold pyIsAlpha
      rw [h2, Bool.and_false]
    unfold AnagramFinder.find_sub_and_full_anagrams
    rw [halpha]
    simp
  · intro halpha
    unfold AnagramFinder.find_sub_and_full_anagrams
    rw [halpha]
    simp only [Bool.not_true, Bool.false_eq_true, if_false]
    cases hc : AnagramFinder.lookupCache f.found_anagrams word with
    | some res => simp
    | none =>
      simp only
      cases hf : AnagramFinder.find_all_anagrams_for_word f word with
      | error e =>
        simp only
        have hni := find_all_no_invalid f word
        rw [hf] at hni
        have he : e ≠ .invalidQuery := fun h => hni (by rw [h])
        intro hcontra
        injection hcontra with h
        exact he h
      | ok anagrams => simp

theorem C7_invalid_query_witness :
    (∃ c ∈ "dog2".toList, c.toNat < 256 ∧ pyCharIsAlpha c = false)
    ∧ AnagramFinder.find_sub_and_full_anagrams
        ⟨[(5593, ["dog"])], []⟩ "dog2" = .error .invalidQuery
    ∧ AnagramFinder.find_sub_and_full_anagrams
        ⟨[(5593, ["dog"])], []⟩ "dog" ≠ .error .invalidQuery :=
  ⟨by decide,
   (C7_invalid_query ⟨[(5593, ["dog"])], []⟩ "dog2").1 (by decide),
   (C7_invalid_query ⟨[(5593, ["dog"])], []⟩ "dog").2 (by decide)⟩

/-! ## C2 -/

/-- C2 (code bug): the spec requires that a purely alphabetic query absent
from the dictionary return its matches unfiltered (the empty list when
there are none), but the unconditional `all_anagrams.remove(word)` raises
`ValueError` there. Evaluating the code at the claimed-valid input:
dictionary `["cat", "dog"]`, query `"xyz"` ends in the `ValueError`, not in
an `ok []` result. -/
theorem C2_absent_query_valueerror :
    AnagramFinder.queryResult ["cat", "dog"] "xyz" =
      some (.error .valueError)
    ∧ pyIsAlpha "xyz" = true :=
  ⟨rfl, rfl⟩

/-! ## C4 -/

/-- C4 (code bug): an uppercase letter passes the `isalpha` validation, but
the query is never lowercased before `map`, so `_prime_dict['D']` raises
`KeyError`; the fully-lowercased form of the same query succeeds. -/
theorem C4_uppercase_query_keyerror :
    pyIsAlpha "Dog" = true
    ∧ AnagramFinder.queryResult ["dog"] "Dog" = some (.error .keyError)
    ∧ pyLower "Dog" = "dog"
    ∧ AnagramFinder.queryResult ["dog"] "dog" = some (.ok []) :=
  ⟨rfl, rfl, rfl, rfl⟩

/-! ## C9 -/

/-- C9: a successful query never changes `_word_dict`, and its only effect
on `_found_anagrams` is either nothing (cache hit) or appending the single
entry for the queried string; existing entries are untouched. -/
theorem C9_frame (f : AnagramFinder) (word : String) (res : List String)
    (f' : AnagramFinder)
    (h : AnagramFinder.find_sub_and_full_anagrams f word = .ok (res, f')) :
    f'.word_dict = f.word_dict
    ∧ (f'.found_anagrams = f.found_anagrams
       ∨ f'.found_anagrams = f.found_anagrams ++ [(word, res)]) := by
  unfold AnagramFinder.find_sub_and_full_anagrams at h
  by_cases halpha : pyIsAlpha word
  · rw [halpha] at h
    simp only [Bool.not_true, Bool.false_eq_true, if_false] at h
    cases hc : AnagramFinder.lookupCache f.found_anagrams word with
    | some r =>
      rw [hc] at h
      simp only [Except.ok.injEq, Prod.mk.injEq] at h
      rw [← h.2]
      exact ⟨rfl, Or.inl rfl⟩
    | none =>
      rw [hc] at h
      simp only at h
      cases hf : AnagramFinder.find_all_anagrams_for_word f word with
      | error e => rw [hf] at h; cases h
      | ok anagrams =>
        rw [hf] at h
        simp only [Except.ok.injEq, Prod.mk.injEq] at h
        rw [← h.2, ← h.1]
        exact ⟨rfl, Or.inr rfl⟩
  · rw [Bool.not_eq_true] at halpha
    rw [halpha] at h
    simp at h

theorem C9_frame_witness :
    (AnagramFinder.mk [(5593, ["dog"])] [("dog", [])]).word_dict =
      (AnagramFinder.mk [(5593, ["dog"])] []).word_dict
    ∧ ((AnagramFinder.mk [(5593, ["dog"])] [("dog", [])]).found_anagrams =
        (AnagramFinder.mk [(5593, ["dog"])] []).found_anagrams
       ∨ (AnagramFinder.mk [(5593, ["dog"])] [("dog", [])]).found_anagrams =
        (AnagramFinder.mk [(5593, ["dog"])] []).found_anagrams ++
          [("dog", [])]) :=
  C9_frame ⟨[(5593, ["dog"])], []⟩ "dog" []
    ⟨[(5593, ["dog"])], [("dog", [])]⟩ (by rfl)

/-! ## C6 -/

theorem lookupCache_append_self (c : List (String × List String))
    (w : String) (r : List String)
    (h : AnagramFinder.lookupCache c w = none) :
    AnagramFinder.lookupCache (c ++ [(w, r)]) w = some r := by
  induction c with
  | nil => simp [AnagramFinder.lookupCache]
  | cons kv rest ih =>
    unfold AnagramFinder.lookupCache at *
    by_cases hk : kv.fst == w
    · simp [List.find?, hk] at h
    · simp only [List.cons_append, List.find?, hk]
      exact ih (by simpa [List.find?, hk] using h)

theorem lookupCache_append_other (c : List (String × List String))
    (w w2 : String) (r : List String) (h : w2 ≠ w) :
    AnagramFinder.lookupCache (c ++ [(w, r)]) w2 =
      AnagramFinder.lookupCache c w2 := by
  induction c with
  | nil =>
    simp only [List.nil_append]
    unfold AnagramFinder.lookupCache
    have : (w == w2) = false := by
      simp only [beq_eq_false_iff_ne, ne_eq]
      exact fun hc => h hc.symm
    simp [List.find?, this]
  | cons kv rest ih =>
    unfold AnagramFinder.lookupCache at *
    by_cases hk : kv.fst == w2
    · simp [List.find?, hk]
    · simp only [List.cons_append, List.find?, hk]
      exact ih

/-- C6: after a successful query, the cache holds the result under the
query string exactly as given; re-running the same literal query returns
the identical result list through the cache branch and leaves the state
unchanged; and no other key's cache entry is affected (so two
differently-cased spellings are distinct cache entries). -/
theorem C6_cache_idempotent (f : AnagramFinder) (word : String)
    (res : List String) (f' : AnagramFinder)
    (h : AnagramFinder.find_sub_and_full_anagrams f word = .ok (res, f')) :
    AnagramFinder.lookupCache f'.found_anagrams word = some res
    ∧ AnagramFinder.find_sub_and_full_anagrams f' word = .ok (res, f')
    ∧ ∀ w2 : String, w2 ≠ word →
        AnagramFinder.lookupCache f'.found_anagrams w2 =
          AnagramFinder.lookupCache f.found_anagrams w2 := by
  unfold AnagramFinder.find_sub_and_full_anagrams at h
  by_cases halpha : pyIsAlpha word
  case neg =>
    rw [Bool.not_eq_true] at halpha
    rw [halpha] at h
    simp at h
  rw [halpha] at h
  simp only [Bool.not_true, Bool.false_eq_true, if_false] at h
  have hlook : AnagramFinder.lookupCache f'.found_anagrams word = some res := by
    cases hc : AnagramFinder.lookupCache f.found_anagrams word with
    | some r =>
      rw [hc] at h
      simp only [Except.ok.injEq, Prod.mk.injEq] at h
      rw [← h.2, ← h.1]
      exact hc
    | none =>
      rw [hc] at h
      simp only at h
      cases hf : AnagramFinder.find_all_anagrams_for_word f word with
      | error e => rw [hf] at h; cases h
      | ok anagrams =>
        rw [hf] at h
        simp only [Except.ok.injEq, Prod.mk.injEq] at h
        rw [← h.2, ← h.1]
        exact lookupCache_append_self _ _ _ hc
  refine ⟨hlook, ?_, ?_⟩
  · unfold AnagramFinder.find_sub_and_full_anagrams
    rw [halpha]
    simp only [Bool.not_true, Bool.false_eq_true, if_false]
    rw [hlook]
  · intro w2 hw2
    cases hc : AnagramFinder.lookupCache f.found_anagrams word with
    | some r =>
      rw [hc] at h
      simp only [Except.ok.injEq, Prod.mk.injEq] at h
      rw [← h.2]
    | none =>
      rw [hc] at h
      simp only at h
      cases hf : AnagramFinder.find_all_anagrams_for_word f word with
      | error e => rw [hf] at h; cases h
      | ok anagrams =>
        rw [hf] at h
        simp only [Except.ok.injEq, Prod.mk.injEq] at h
        rw [← h.2]
        exact lookupCache_append_other _ _ _ _ hw2

theorem C6_cache_idempotent_witness :
    AnagramFinder.lookupCache [("dog", [])] "dog" = some []
    ∧ AnagramFinder.find_sub_and_full_anagrams
        ⟨[(5593, ["dog"])], [("dog", [])]⟩ "dog" =
        .ok ([], ⟨[(5593, ["dog"])], [("dog", [])]⟩)
    ∧ AnagramFinder.lookupCache [("dog", [])] "DOG" =
        AnagramFinder.lookupCache [] "DOG" :=
  have h := C6_cache_idempotent ⟨[(5593, ["dog"])], []⟩ "dog" []
    ⟨[(5593, ["dog"])], [("dog", [])]⟩ (by rfl)
  ⟨h.1, h.2.1, h.2.2 "DOG" (by decide)⟩

/-! ## C1 -/

theorem mapFrom_eq_prod (w : List Char)
    (h : ∀ c ∈ w, c ∈ azString.toList) (acc : Nat) :
    mapFrom acc w = some (acc * prodSig w) := by
  induction w generalizing acc with
  | nil => simp [mapFrom, prodSig]
  | cons c cs ih =>
    have hc : primeLookup c = some (sigChar c) := az_lookup c (h c (by simp))
    unfold mapFrom
    rw [hc]
    simp only
    rw [ih (fun x hx => h x (by simp [hx])) (acc * sigChar c)]
    congr 1
    simp [prodSig, Nat.mul_assoc]

theorem map_eq_prod (s : String) (h : ∀ c ∈ s.toList, c ∈ azString.toList) :
    WordToNumberMapper.map s = some (prodSig s.toList) := by
  unfold WordToNumberMapper.map
  rw [mapFrom_eq_prod s.toList h 1, Nat.one_mul]

theorem prodSig_pos (w : List Char)
    (h : ∀ c ∈ w, c ∈ azString.toList) : 0 < prodSig w := by
  apply List.prod_pos
  intro a ha
  rcases List.mem_map.mp ha with ⟨c, hc, rfl⟩
  exact (az_prime c (h c hc)).pos

theorem factorization_prodSig (w : List Char)
    (h : ∀ c ∈ w, c ∈ azString.toList) (q : Nat) :
    (prodSig w).factorization q = w.countP (fun c => sigChar c == q) := by
  induction w with
  | nil => simp [prodSig]
  | cons c cs ih =>
    have hcaz := h c (by simp)
    have hcs : ∀ x ∈ cs, x ∈ azString.toList := fun x hx => h x (by simp [hx])
    have hprime := az_prime c hcaz
    have hcne : sigChar c ≠ 0 := hprime.pos.ne'
    have hpne : prodSig cs ≠ 0 := (prodSig_pos cs hcs).ne'
    have hsplit : prodSig (c :: cs) = sigChar c * prodSig cs := by
      simp [prodSig]
    rw [hsplit, Nat.factorization_mul hcne hpne]
    simp only [Finsupp.add_apply]
    rw [hprime.factorization, Finsupp.single_apply, ih hcs, List.countP_cons]
    simp only [beq_iff_eq]
    rw [Nat.add_comm]

theorem countP_sig_eq_count (w : List Char)
    (h : ∀ c ∈ w, c ∈ azString.toList) (ltr : Char)
    (hl : ltr ∈ azString.toList) :
    w.countP (fun c => sigChar c == sigChar ltr) = w.count ltr := by
  rw [List.count_eq_countP]
  apply List.countP_congr
  intro c hc
  simp only [beq_iff_eq]
  constructor
  · intro hs
    exact az_inj c (h c hc) ltr hl hs
  · intro he
    rw [he]

theorem countP_sig_eq_zero (w : List Char)
    (h : ∀ c ∈ w, c ∈ azString.toList) (q : Nat)
    (hnl : ∀ ltr ∈ azString.toList, sigChar ltr ≠ q) :
    w.countP (fun c => sigChar c == q) = 0 := by
  rw [List.countP_eq_zero]
  intro c hc
  simp only [beq_iff_eq]
  exact hnl c (h c hc)

/-- C1: for words made only of the letters `a`–`z`, the signature of `W1`
computed by `map` is divisible by the signature of `W2` — equivalently
`is_sub_or_full_anagram` holds of the two signatures — exactly when every
letter occurs in `W2` at most as often as in `W1` (the sub-multiset
property). -/
theorem C1_signature_divisibility (w1 w2 : String)
    (h1 : ∀ c ∈ w1.toList, c ∈ azString.toList)
    (h2 : ∀ c ∈ w2.toList, c ∈ azString.toList)
    (n1 n2 : Nat)
    (e1 : WordToNumberMapper.map w1 = some n1)
    (e2 : WordToNumberMapper.map w2 = some n2) :
    WordToNumberMapper.is_sub_or_full_anagram n1 n2 = true
      ↔ ∀ c : Char, w2.toList.count c ≤ w1.toList.count c := by
  have hm1 := map_eq_prod w1 h1
  rw [e1] at hm1
  have hn1 : n1 = prodSig w1.toList := Option.some.inj hm1
  have hm2 := map_eq_prod w2 h2
  rw [e2] at hm2
  have hn2 : n2 = prodSig w2.toList := Option.some.inj hm2
  subst hn1
  subst hn2
  have hne1 : prodSig w1.toList ≠ 0 := (prodSig_pos w1.toList h1).ne'
  have hne2 : prodSig w2.toList ≠ 0 := (prodSig_pos w2.toList h2).ne'
  unfold WordToNumberMapper.is_sub_or_full_anagram
  rw [beq_iff_eq, ← Nat.dvd_iff_mod_eq_zero,
    ← Nat.factorization_le_iff_dvd hne2 hne1, Finsupp.le_def]
  constructor
  · intro hf c
    by_cases hc : c ∈ azString.toList
    · have hq := az_prime c hc
      have hle := hf (sigChar c)
      rw [factorization_prodSig w2.toList h2 _,
        factorization_prodSig w1.toList h1 _,
        countP_sig_eq_count w2.toList h2 c hc,
        countP_sig_eq_count w1.toList h1 c hc] at hle
      exact hle
    · have hnm : c ∉ w2.toList := fun hx => hc (h2 c hx)
      rw [List.count_eq_zero.mpr hnm]
      exact Nat.zero_le _
  · intro hcount q
    rw [factorization_prodSig w2.toList h2 q,
      factorization_prodSig w1.toList h1 q]
    by_cases hex : ∃ ltr ∈ azString.toList, sigChar ltr = q
    · rcases hex with ⟨ltr, hltr, rfl⟩
      rw [countP_sig_eq_count w2.toList h2 ltr hltr,
        countP_sig_eq_count w1.toList h1 ltr hltr]
      exact hcount ltr
    · push_neg at hex
      rw [countP_sig_eq_zero w2.toList h2 q hex,
        countP_sig_eq_zero w1.toList h1 q hex]

theorem C1_signature_divisibility_witness :
    (WordToNumberMapper.is_sub_or_full_anagram 5593 799 = true
      ↔ ∀ c : Char, "go".toList.count c ≤ "dog".toList.count c)
    ∧ WordToNumberMapper.map "dog" = some 5593
    ∧ WordToNumberMapper.map "go" = some 799 :=
  ⟨C1_signature_divisibility "dog" "go" (by decide) (by decide) 5593 799
    (by rfl) (by rfl), by rfl, by rfl⟩

/-! ## C5 -/

/-- C5 (code bug): the spec says every raw word that is empty or contains
any character outside `a`–`z` (after lowercasing) is silently dropped during
construction — no group, no error — and the concrete
`["", "abc123", "  ", "cat"]` scenario does behave that way. But the
constructor's filter is `isalpha`, which also accepts letters outside
`a`–`z`: `"café"` (with `'é'`, code point 233, a letter outside `a`–`z`)
passes the filter, and `_prime_dict['é']` then raises an uncaught
`KeyError` out of `__init__` instead of silently dropping the word. -/
theorem C5_construction_filtering :
    buildDict [] ["", "abc123", "  ", "cat"] = some [(710, ["cat"])]
    ∧ pyIsAlpha (pyLower "café") = true
    ∧ ('é' ∈ "café".toList ∧ 'é' ∉ azString.toList)
    ∧ buildDict [] ["café"] = none
    ∧ AnagramFinder.init ["", "abc123", "  ", "café", "cat"] = none :=
  ⟨rfl, rfl, ⟨by decide, by decide⟩, rfl, rfl⟩

/-! ## C3 -/

theorem dictAppend_goodDict (d : List (Nat × List String)) (k : Nat)
    (w : String) (hd : GoodDict d)
    (hw : WordToNumberMapper.map w = some k) :
    GoodDict (dictAppend d k w) := by
  induction d with
  | nil =>
    intro kv hkv w' hw'
    simp only [dictAppend, List.mem_singleton] at hkv
    subst hkv
    simp only [List.mem_singleton] at hw'
    subst hw'
    exact hw
  | cons kv0 rest ih =>
    obtain ⟨k0, ws0⟩ := kv0
    unfold dictAppend
    by_cases hk : k0 = k
    · rw [if_pos hk]
      intro kv hkv w' hw'
      rcases List.mem_cons.mp hkv with rfl | hmem
      · rcases List.mem_append.mp hw' with hin | hin
        · exact hd (k0, ws0) (List.mem_cons_self _ _) w' hin
        · rw [List.mem_singleton] at hin
          subst hin
          rw [hw, hk]
      · exact hd kv (List.mem_cons_of_mem _ hmem) w' hw'
    · rw [if_neg hk]
      intro kv hkv w' hw'
      rcases List.mem_cons.mp hkv with rfl | hmem
      · exact hd (k0, ws0) (List.mem_cons_self _ _) w' hw'
      · exact ih (fun kv2 hkv2 => hd kv2 (List.mem_cons_of_mem _ hkv2))
          kv hmem w' hw'

theorem buildDict_goodDict (ws : List String) :
    ∀ d d', GoodDict d → buildDict d ws = some d' → GoodDict d' := by
  induction ws with
  | nil =>
    intro d d' hd h
    unfold buildDict at h
    rw [Option.some.injEq] at h
    rw [← h]
    exact hd
  | cons w rest ih =>
    intro d d' hd h
    unfold buildDict at h
    simp only at h
    by_cases halpha : pyIsAlpha (pyLower w) = true
    · rw [halpha] at h
      simp only [Bool.not_true, Bool.false_eq_true, if_false] at h
      cases hm : WordToNumberMapper.map (pyLower w) with
      | none => rw [hm] at h; cases h
      | some nbr =>
        rw [hm] at h
        simp only at h
        exact ih (dictAppend d nbr (pyLower w)) d'
          (dictAppend_goodDict d nbr (pyLower w) hd hm) h
    · rw [Bool.not_eq_true] at halpha
      rw [halpha] at h
      simp only [Bool.not_false, if_true] at h
      exact ih d d' hd h

theorem count_allWords_dictAppend (d : List (Nat × List String)) (k : Nat)
    (w : String) (q : String) :
    (allWords (dictAppend d k w)).count q
      = (allWords d).count q + (if w = q then 1 else 0) := by
  induction d with
  | nil =>
    simp only [dictAppend, allWords, List.map_cons, List.map_nil,
      List.flatten_cons, List.flatten_nil, List.append_nil, List.count_nil]
    rw [List.count_cons]
    simp [beq_iff_eq]
  | cons kv0 rest ih =>
    obtain ⟨k0, ws0⟩ := kv0
    unfold dictAppend
    by_cases hk : k0 = k
    · rw [if_pos hk]
      simp only [allWords, List.map_cons, List.flatten_cons, List.count_append]
      have h1 : List.count q [w] = if w = q then 1 else 0 := by
        rw [List.count_cons]
        simp [beq_iff_eq]
      rw [h1]
      omega
    · rw [if_neg hk]
      simp only [allWords, List.map_cons, List.flatten_cons, List.count_append]
      have ih' := ih
      unfold allWords at ih'
      omega

theorem processedWords_cons (w : String) (ws : List String) :
    processedWords (w :: ws) =
      if pyIsAlpha (pyLower w) then pyLower w :: processedWords ws
      else processedWords ws := by
  unfold processedWords
  rw [List.map_cons, List.filter_cons]

theorem count_allWords_buildDict (ws : List String) :
    ∀ d d' (q : String), buildDict d ws = some d' →
      (allWords d').count q
        = (allWords d).count q + (processedWords ws).count q := by
  induction ws with
  | nil =>
    intro d d' q h
    unfold buildDict at h
    rw [Option.some.injEq] at h
    rw [← h]
    simp [processedWords]
  | cons w rest ih =>
    intro d d' q h
    unfold buildDict at h
    simp only at h
    rw [processedWords_cons]
    by_cases halpha : pyIsAlpha (pyLower w) = true
    · rw [halpha] at h ⊢
      simp only [Bool.not_true, Bool.false_eq_true, if_false] at h
      simp only [if_true]
      cases hm : WordToNumberMapper.map (pyLower w) with
      | none => rw [hm] at h; cases h
      | some nbr =>
        rw [hm] at h
        simp only at h
        have hrec := ih (dictAppend d nbr (pyLower w)) d' q h
        rw [count_allWords_dictAppend d nbr (pyLower w) q] at hrec
        rw [hrec, List.count_cons]
        have : (if (pyLower w == q) = true then 1 else 0)
            = (if pyLower w = q then 1 else 0) := by
          simp [beq_iff_eq]
        omega
    · rw [Bool.not_eq_true] at halpha
      rw [halpha] at h ⊢
      simp only [Bool.not_false, if_true] at h
      simp only [Bool.false_eq_true, if_false]
      exact ih d d' q h

theorem pyRemove_count_self (l : List String) (x : String) :
    ∀ r, pyRemove l x = some r → r.count x + 1 = l.count x := by
  induction l with
  | nil => intro r h; cases h
  | cons z zs ih =>
    intro r h
    unfold pyRemove at h
    by_cases hz : z = x
    · rw [if_pos hz] at h
      rw [Option.some.injEq] at h
      subst h
      subst hz
      rw [List.count_cons]
      simp
    · rw [if_neg hz] at h
      cases hr : pyRemove zs x with
      | none => rw [hr] at h; cases h
      | some r0 =>
        rw [hr] at h
        simp only [Option.map_some', Option.some.injEq] at h
        subst h
        rw [List.count_cons, List.count_cons]
        have := ih r0 hr
        have hne : (z == x) = false := by simp [beq_iff_eq, hz]
        rw [hne]
        omega

theorem pyRemove_count_other (l : List String) (x y : String) (hxy : y ≠ x) :
    ∀ r, pyRemove l x = some r → r.count y = l.count y := by
  induction l with
  | nil => intro r h; cases h
  | cons z zs ih =>
    intro r h
    unfold pyRemove at h
    by_cases hz : z = x
    · rw [if_pos hz] at h
      rw [Option.some.injEq] at h
      subst h
      subst hz
      rw [List.count_cons]
      have hne : (z == y) = false := by
        simp only [beq_eq_false_iff_ne, ne_eq]
        exact fun hc => hxy hc.symm
      rw [hne]
      simp
    · rw [if_neg hz] at h
      cases hr : pyRemove zs x with
      | none => rw [hr] at h; cases h
      | some r0 =>
        rw [hr] at h
        simp only [Option.map_some', Option.some.injEq] at h
        subst h
        rw [List.count_cons, List.count_cons, ih r0 hr]

theorem count_filter_flatten (d : List (Nat × List String))
    (P : Nat × List String → Bool) (q : String)
    (h : ∀ kv ∈ d, q ∈ kv.snd → P kv = true) :
    (((d.filter P).map (·.snd)).flatten).count q
      = ((d.map (·.snd)).flatten).count q := by
  induction d with
  | nil => rfl
  | cons kv rest ih =>
    rw [List.filter_cons]
    by_cases hP : P kv = true
    · rw [if_pos hP]
      simp only [List.map_cons, List.flatten_cons, List.count_append]
      rw [ih (fun kv2 h2 hq => h kv2 (List.mem_cons_of_mem _ h2) hq)]
    · rw [if_neg hP]
      simp only [List.map_cons, List.flatten_cons, List.count_append]
      have hq : q ∉ kv.snd := fun hmem => hP (h kv (List.mem_cons_self _ _) hmem)
      rw [List.count_eq_zero.mpr hq,
        ih (fun kv2 h2 hq2 => h kv2 (List.mem_cons_of_mem _ h2) hq2)]
      omega

theorem mem_filter_flatten (d : List (Nat × List String))
    (P : Nat × List String → Bool) (w : String) (kv : Nat × List String)
    (hkv : kv ∈ d) (hw : w ∈ kv.snd) (hP : P kv = true) :
    w ∈ ((d.filter P).map (·.snd)).flatten :=
  List.mem_flatten.mpr
    ⟨kv.snd, List.mem_map_of_mem _ (List.mem_filter.mpr ⟨hkv, hP⟩), hw⟩

theorem pyRemove_mem_other (l : List String) (x y : String) (hxy : y ≠ x)
    (r : List String) (h : pyRemove l x = some r) (hy : y ∈ l) : y ∈ r := by
  by_contra hn
  have h0 : r.count y = 0 := List.count_eq_zero.mpr hn
  rw [pyRemove_count_other l x y hxy r h] at h0
  exact (List.count_eq_zero.mp h0) hy

theorem mem_allWords (d : List (Nat × List String)) (w : String)
    (h : w ∈ allWords d) : ∃ kv ∈ d, w ∈ kv.snd := by
  unfold allWords at h
  rcases List.mem_flatten.mp h with ⟨g, hg, hw⟩
  rcases List.mem_map.mp hg with ⟨kv, hkv, rfl⟩
  exact ⟨kv, hkv, hw⟩

/-- C3 (amended): on the dictionary `["dog","god","go","og","do","cat"]`,
querying `"dog"` returns exactly `["god","go","og","do"]`, excluding the
query itself and `"cat"`; in general a query word appears in its own
result list exactly one time fewer than its number of occurrences among
the lowercased, filtered dictionary entries — in particular never, when it
occurs exactly once — while every other stored word whose signature
divides the query's signature does appear. -/
theorem C3_end_to_end :
    AnagramFinder.queryResult ["dog", "god", "go", "og", "do", "cat"] "dog" =
      some (.ok ["god", "go", "og", "do"])
    ∧ ∀ (ws : List String) (q : String) (f f' : AnagramFinder)
        (res : List String),
        AnagramFinder.init ws = some f →
        AnagramFinder.find_sub_and_full_anagrams f q = .ok (res, f') →
        res.count q + 1 = (processedWords ws).count q
        ∧ ((processedWords ws).count q = 1 → q ∉ res)
        ∧ ∀ w' ∈ allWords f.word_dict, w' ≠ q →
            ∀ n1 n2 : Nat, WordToNumberMapper.map q = some n1 →
              WordToNumberMapper.map w' = some n2 →
              WordToNumberMapper.is_sub_or_full_anagram n1 n2 = true →
              w' ∈ res := by
  refine ⟨by rfl, ?_⟩
  intro ws q f f' res hinit hfind
  unfold AnagramFinder.init at hinit
  cases hb : buildDict [] ws with
  | none => rw [hb] at hinit; cases hinit
  | some d =>
    rw [hb] at hinit
    simp only [Option.map_some', Option.some.injEq] at hinit
    subst hinit
    have hgood : GoodDict d :=
      buildDict_goodDict ws [] d
        (fun kv hkv => absurd hkv (List.not_mem_nil kv)) hb
    unfold AnagramFinder.find_sub_and_full_anagrams at hfind
    by_cases halpha : pyIsAlpha q = true
    case neg =>
      rw [Bool.not_eq_true] at halpha
      rw [halpha] at hfind
      simp at hfind
    rw [halpha] at hfind
    simp only [Bool.not_true, Bool.false_eq_true, if_false] at hfind
    have hlc :
        AnagramFinder.lookupCache
          (AnagramFinder.mk d []).found_anagrams q = none := rfl
    rw [hlc] at hfind
    simp only at hfind
    cases hfa : AnagramFinder.find_all_anagrams_for_word ⟨d, []⟩ q with
    | error e => rw [hfa] at hfind; cases hfind
    | ok anagrams =>
      rw [hfa] at hfind
      simp only [Except.ok.injEq, Prod.mk.injEq] at hfind
      obtain ⟨hres, hfp⟩ := hfind
      subst hres
      unfold AnagramFinder.find_all_anagrams_for_word at hfa
      cases hm : WordToNumberMapper.map q with
      | none => rw [hm] at hfa; cases hfa
      | some nbr =>
        rw [hm] at hfa
        simp only at hfa
        cases hr : pyRemove
            (((d.filter (fun kv =>
              WordToNumberMapper.is_sub_or_full_anagram nbr kv.fst)).map
              (·.snd)).flatten) q with
        | none => rw [hr] at hfa; cases hfa
        | some r =>
          rw [hr] at hfa
          rw [Except.ok.injEq] at hfa
          subst hfa
          have hPall : ∀ kv ∈ d, q ∈ kv.snd →
              WordToNumberMapper.is_sub_or_full_anagram nbr kv.fst = true := by
            intro kv hkv hq
            have hk := hgood kv hkv q hq
            rw [hm] at hk
            have : nbr = kv.fst := Option.some.inj hk
            rw [← this]
            unfold WordToNumberMapper.is_sub_or_full_anagram
            rw [Nat.mod_self]
            rfl
          have hcnt := pyRemove_count_self
            (((d.filter (fun kv =>
              WordToNumberMapper.is_sub_or_full_anagram nbr kv.fst)).map
              (·.snd)).flatten) q r hr
          rw [count_filter_flatten d _ q hPall] at hcnt
          have hbc := count_allWords_buildDict ws [] d q hb
          have hzero : (allWords ([] : List (Nat × List String))).count q = 0 := rfl
          rw [hzero] at hbc
          unfold allWords at hbc
          refine ⟨by omega, ?_, ?_⟩
          · intro h1
            have h0 : r.count q = 0 := by omega
            exact List.count_eq_zero.mp h0
          · intro w' hw' hne n1 n2 hn1 hn2 hdvd
            rcases mem_allWords d w' hw' with ⟨kv, hkv, hwkv⟩
            have hk2 := hgood kv hkv w' hwkv
            rw [hn2] at hk2
            have hk2' : n2 = kv.fst := Option.some.inj hk2
            have hn1' : nbr = n1 := Option.some.inj hn1
            have hP : WordToNumberMapper.is_sub_or_full_anagram nbr kv.fst
                = true := by
              rw [hn1', ← hk2']
              exact hdvd
            exact pyRemove_mem_other _ q w' hne r hr
              (mem_filter_flatten d _ w' kv hkv hwkv hP)

/-- C3 counterexample to the claim as stated: with the dictionary
`["dog", "dog"]` the word `"dog"` is present verbatim in the dictionary,
yet querying `"dog"` returns `["dog"]` — the query word does appear in its
own result list (duplicates are not deduplicated; `remove` drops only one
occurrence). -/
theorem C3_counterexample :
    "dog" ∈ ["dog", "dog"]
    ∧ AnagramFinder.queryResult ["dog", "dog"] "dog" = some (.ok ["dog"])
    ∧ "dog" ∈ ["dog"] :=
  ⟨by decide, by rfl, by decide⟩

theorem C3_end_to_end_witness :
    ((["god", "go", "og", "do"] : List String).count "dog" + 1
      = (processedWords ["dog", "god", "go", "og", "do", "cat"]).count "dog")
    ∧ "dog" ∉ (["god", "go", "og", "do"] : List String)
    ∧ "god" ∈ (["god", "go", "og", "do"] : List String) :=
  have h := C3_end_to_end.2 ["dog", "god", "go", "og", "do", "cat"] "dog"
    ⟨[(5593, ["dog", "god"]), (799, ["go", "og"]), (329, ["do"]),
      (710, ["cat"])], []⟩
    ⟨[(5593, ["dog", "god"]), (799, ["go", "og"]), (329, ["do"]),
      (710, ["cat"])], [("dog", ["god", "go", "og", "do"])]⟩
    ["god", "go", "og", "do"] (by rfl) (by rfl)
  ⟨h.1, h.2.1 (by decide), h.2.2 "god" (by decide) (by decide) 5593 5593
    (by rfl) (by rfl) (by rfl)⟩
